import Mathlib

/-!
Verification of the TixGo ticket-booking backend (Express + MongoDB).

This file gives a shallow embedding of the request handlers that govern the
booking lifecycle, inventory consistency, payment reconciliation and ticket
moderation, and proves properties about them.

Modelling conventions:
* A MongoDB collection is a `List` of documents in insertion order.
  `findOne` is `List.find?`, `insertOne` appends, `updateOne` updates the
  first document matching the filter (`updateFirst`), `deleteOne` removes the
  first match (`removeFirst`), `countDocuments` is `List.countP`.
* ObjectIds are modelled as `Nat`; fresh booking ids are assigned as the
  current length of the bookings list (ids are never reused because bookings
  are never deleted).
* `Date` values are modelled as `Int` timestamps passed in as a `now`
  parameter.
* A handler is a function from the database (plus request data) to an
  `Except Err DB` (or a pair for handlers that only redirect); the returned
  `DB` is the post-state.  An `Except.error` reply corresponds to an early
  `return res.status(4xx)` in the source, which happens before any write.
* Stripe checkout sessions, as retrieved by
  `stripe.checkout.sessions.retrieve`, are modelled by the `Session`
  structure carrying exactly the fields the handlers read.
* String-typed document fields that no handler in scope inspects
  (`from`, `to`, `transport`, `perks`) are omitted from the records; they
  behave exactly like the retained opaque string fields `title` and `image`.
-/

/-- Ticket document, as created by `POST /tickets` and mutated by the
ticket routes.  `tid` stands for the Mongo `_id`. -/
structure Ticket where
  tid : Nat
  vendorEmail : String
  vendorName : String
  title : String
  price : Int
  quantity : Int
  departure : Int
  image : String
  verificationStatus : String
  advertised : Bool
  hidden : Bool
  createdAt : Int
  deriving DecidableEq, Repr

/-- Booking document, as created by `POST /bookings`.  `bid` stands for the
Mongo `_id`; the optional timestamps are absent until stamped. -/
structure Booking where
  bid : Nat
  ticketId : Nat
  vendorEmail : String
  customerEmail : String
  title : String
  price : Int
  quantity : Int
  status : String
  createdAt : Int
  acceptedAt : Option Int
  rejectedAt : Option Int
  paidAt : Option Int
  deriving DecidableEq, Repr

/-- Payment document, as inserted by the payment-verification handlers.
`amountCents` keeps Stripe's `amount_total` in minor units (the JS code
stores `session.amount_total / 100`; the unit change does not matter for
any property below).  `ticketTitle` is only set by `POST /payments/verify`
(the `index.js` revision inserts no such field; it is `""` there). -/
structure Payment where
  bookingId : Nat
  ticketId : Nat
  customerEmail : String
  ticketTitle : String
  amountCents : Int
  quantity : Int
  currency : String
  transactionId : String
  paidAt : Int
  deriving DecidableEq, Repr

/-- The shared mutable store: the three collections the claims are about. -/
structure DB where
  tickets : List Ticket
  bookings : List Booking
  payments : List Payment
  deriving DecidableEq, Repr

/-- A Stripe checkout session as returned by
`stripe.checkout.sessions.retrieve(sessionId)`.  `bookingId`, `ticketId` and
`quantityMeta` are the `metadata` fields written at session creation;
`payment_intent` is the external transaction id. -/
structure Session where
  payment_status : String
  bookingId : Nat
  ticketId : Nat
  quantityMeta : Int
  payment_intent : String
  amount_total : Int
  currency : String
  deriving DecidableEq, Repr

/-- Error taxonomy of the handlers (each constructor corresponds to one
family of `res.status(4xx).send(...)` replies). -/
inductive Err where
  | Forbidden
  | NotFound
  | ValidationError
  | NotApproved
  | InsufficientStock
  | InvalidTransition
  | SlotLimitExceeded
  | PaymentNotCompleted
  deriving DecidableEq, Repr

/-- Mongo `updateOne`: apply `f` to the first element satisfying `p`,
leave everything else unchanged. -/
def updateFirst (p : α → Bool) (f : α → α) : List α → List α
  | [] => []
  | x :: xs => if p x then f x :: xs else x :: updateFirst p f xs

/-- Mongo `deleteOne`: remove the first element satisfying `p`. -/
def removeFirst (p : α → Bool) : List α → List α
  | [] => []
  | x :: xs => if p x then xs else x :: removeFirst p xs

/-- Whether a handler reply is a success. -/
def exOk : Except Err α → Bool
  | .ok _ => true
  | .error _ => false

/-- The reservation write inside `POST /bookings` (part_002 lines 951-954):
`ticketsCollection.updateOne({_id: ticketOid, quantity: {$gte: quantity}},
{$inc: {quantity: -quantity}})`.
One single conditional write: the stock check is part of the filter of the
same `updateOne`, not a separate read.  Returns
`(modifiedCount ≠ 0, updated collection)`; with a positive `qty` (which the
handler has already ensured) a matched document is always modified, so
`modifiedCount ≠ 0` is exactly "some document matched the filter". -/
def reserveUpd (ticketId : Nat) (qty : Int) (ts : List Ticket) : Bool × List Ticket :=
  (ts.any (fun t => t.tid == ticketId && decide (qty ≤ t.quantity)),
   updateFirst (fun t => t.tid == ticketId && decide (qty ≤ t.quantity))
     (fun t => { t with quantity := t.quantity - qty }) ts)

/-- `POST /bookings` (part_002 lines 925-983).  Checks, in source order:
caller = customerEmail, positive quantity, ticket exists, ticket approved;
then reserves stock with the conditional write and inserts the `pending`
booking with snapshotted vendor/title/price.  (The JS truthiness test
`!ticketId` on the raw request string is subsumed by id lookup failure;
`!quantity || quantity <= 0` is `quantity ≤ 0`.) -/
def postBooking (db : DB) (callerEmail customerEmail : String) (ticketId : Nat)
    (quantity : Int) (now : Int) : Except Err (DB × Nat) :=
  if customerEmail ≠ callerEmail then .error .Forbidden
  else if quantity ≤ 0 then .error .ValidationError
  else
    match db.tickets.find? (fun t => t.tid == ticketId) with
    | none => .error .NotFound
    | some ticket =>
      if ticket.verificationStatus ≠ "approved" then .error .NotApproved
      else
        let r := reserveUpd ticketId quantity db.tickets
        if !r.1 then .error .InsufficientStock
        else
          let newBooking : Booking :=
            { bid := db.bookings.length
              ticketId := ticket.tid
              vendorEmail := ticket.vendorEmail
              customerEmail := customerEmail
              title := ticket.title
              price := ticket.price
              quantity := quantity
              status := "pending"
              createdAt := now
              acceptedAt := none
              rejectedAt := none
              paidAt := none }
          .ok ({ db with tickets := r.2, bookings := db.bookings ++ [newBooking] },
               db.bookings.length)

/-- `PATCH /bookings/:id/accept` (part_002 lines 1030-1054): only the
ticket's vendor may accept, and only a `pending` booking; sets `accepted`
and stamps `acceptedAt`. -/
def acceptBooking (db : DB) (callerEmail : String) (bookingId : Nat) (now : Int) :
    Except Err DB :=
  match db.bookings.find? (fun b => b.bid == bookingId) with
  | none => .error .NotFound
  | some booking =>
    if booking.vendorEmail ≠ callerEmail then .error .Forbidden
    else if booking.status ≠ "pending" then .error .InvalidTransition
    else .ok { db with
      bookings := updateFirst (fun b => b.bid == bookingId)
        (fun b => { b with status := "accepted", acceptedAt := some now }) db.bookings }

/-- `PATCH /bookings/:id/reject` (part_002 lines 1056-1083): only the
vendor, only from `pending`; releases the reserved quantity back to the
ticket (`$inc: {quantity: booking.quantity}`, unconditional) and then sets
`rejected` with `rejectedAt`. -/
def rejectBooking (db : DB) (callerEmail : String) (bookingId : Nat) (now : Int) :
    Except Err DB :=
  match db.bookings.find? (fun b => b.bid == bookingId) with
  | none => .error .NotFound
  | some booking =>
    if booking.vendorEmail ≠ callerEmail then .error .Forbidden
    else if booking.status ≠ "pending" then .error .InvalidTransition
    else
      let ts := updateFirst (fun t => t.tid == booking.ticketId)
        (fun t => { t with quantity := t.quantity + booking.quantity }) db.tickets
      .ok { db with
        tickets := ts
        bookings := updateFirst (fun b => b.bid == bookingId)
          (fun b => { b with status := "rejected", rejectedAt := some now }) db.bookings }

/-- `GET /stripe/payment-cancelled` (part_002 lines 409-439): if the booking
exists and is `accepted`, release its quantity and set `cancelled`;
otherwise a silent no-op (the handler always redirects). -/
def paymentCancelled (db : DB) (bookingId : Nat) : DB :=
  match db.bookings.find? (fun b => b.bid == bookingId) with
  | none => db
  | some booking =>
    if booking.status == "accepted" then
      { db with
        tickets := updateFirst (fun t => t.tid == booking.ticketId)
          (fun t => { t with quantity := t.quantity + booking.quantity }) db.tickets
        bookings := updateFirst (fun b => b.bid == bookingId)
          (fun b => { b with status := "cancelled" }) db.bookings }
    else db

/-- `POST /payments/verify` (part_002 lines 240-295): fails unless the
session reports `paid`; looks up the booking by the correlation metadata;
if a Payment with this `transactionId` already exists, replies success
without writing; otherwise inserts the Payment and then sets the booking to
`paid` with `paidAt`.  Note that the booking update carries no status
filter: it fires whatever the current status is. -/
def verifyPayment (db : DB) (s : Session) (now : Int) : Except Err DB :=
  if s.payment_status ≠ "paid" then .error .PaymentNotCompleted
  else
    match db.bookings.find? (fun b => b.bid == s.bookingId) with
    | none => .error .NotFound
    | some booking =>
      if (db.payments.find? (fun p => p.transactionId == s.payment_intent)).isSome then
        .ok db
      else
        let payment : Payment :=
          { bookingId := s.bookingId
            ticketId := booking.ticketId
            customerEmail := booking.customerEmail
            ticketTitle := booking.title
            amountCents := s.amount_total
            quantity := booking.quantity
            currency := s.currency
            transactionId := s.payment_intent
            paidAt := now }
        .ok { db with
          payments := db.payments ++ [payment]
          bookings := updateFirst (fun b => b.bid == s.bookingId)
            (fun b => { b with status := "paid", paidAt := some now }) db.bookings }

/-- Outcome of the redirect-only `index.js` payment-success handler. -/
inductive Redirect where
  | success
  | failed
  deriving DecidableEq, Repr

/-- `GET /stripe/payment-success` from `index.js` (lines 177-229): on a
`paid` session, if no Payment with this `transactionId` exists yet, it sets
the booking to `paid`, then decrements the ticket quantity by the metadata
quantity (guarded by `quantity: {$gte: quantity}`), then inserts the
Payment.  A duplicate delivery redirects to success without writing. -/
def stripePaymentSuccess (db : DB) (s : Session) (now : Int) : Redirect × DB :=
  if s.payment_status ≠ "paid" then (.failed, db)
  else
    let dup := (db.payments.find? (fun p => p.transactionId == s.payment_intent)).isSome
    match db.bookings.find? (fun b => b.bid == s.bookingId) with
    | none => (.failed, db)
    | some booking =>
      if dup then (.success, db)
      else
        let payment : Payment :=
          { bookingId := s.bookingId
            ticketId := s.ticketId
            customerEmail := booking.customerEmail
            ticketTitle := ""
            amountCents := s.amount_total
            quantity := booking.quantity
            currency := s.currency
            transactionId := s.payment_intent
            paidAt := now }
        (.success,
         { db with
           bookings := updateFirst (fun b => b.bid == s.bookingId)
             (fun b => { b with status := "paid", paidAt := some now }) db.bookings
           tickets := updateFirst
             (fun t => t.tid == s.ticketId && decide (s.quantityMeta ≤ t.quantity))
             (fun t => { t with quantity := t.quantity - s.quantityMeta }) db.tickets
           payments := db.payments ++ [payment] })

/-- The number of tickets counted by the advertise slot-cap check:
`countDocuments({verificationStatus: "approved", advertised: true})`. -/
def countAdvertised (db : DB) : Nat :=
  db.tickets.countP (fun t => t.verificationStatus == "approved" && t.advertised)

/-- `PATCH /tickets/:id/advertise` (part_002 lines 837-878, identical in
`index.js`): turning advertising on first counts the currently advertised
approved tickets and fails when that count is already ≥ 6; turning it off
skips the count entirely.  Then `updateOne({_id}, {$set: {advertised}})`,
with `matchedCount = 0` reported as not-found. -/
def advertiseTicket (db : DB) (ticketId : Nat) (advertised : Bool) : Except Err DB :=
  if advertised && decide (6 ≤ countAdvertised db) then .error .SlotLimitExceeded
  else if (db.tickets.find? (fun t => t.tid == ticketId)).isNone then .error .NotFound
  else .ok { db with
    tickets := updateFirst (fun t => t.tid == ticketId)
      (fun t => { t with advertised := advertised }) db.tickets }

/-- One `$set` assignment from a request body, for the ticket update
routes.  There is one constructor per mutable ticket field the model
retains (arbitrary bodies are lists of these, in any order, with any
repetition). -/
inductive FieldSet where
  | title (v : String)
  | price (v : Int)
  | quantity (v : Int)
  | departure (v : Int)
  | image (v : String)
  | advertised (v : Bool)
  | hidden (v : Bool)
  | verificationStatus (v : String)
  | vendorEmail (v : String)
  | vendorName (v : String)
  | createdAt (v : Int)
  deriving DecidableEq, Repr

/-- Whether an assignment targets one of the four keys that
`PATCH /tickets/:id` deletes from the body before applying it
(`delete updatedData.verificationStatus; ... vendorEmail; ... vendorName;
... createdAt`). -/
def isProtected : FieldSet → Bool
  | .verificationStatus _ => true
  | .vendorEmail _ => true
  | .vendorName _ => true
  | .createdAt _ => true
  | _ => false

/-- The four `delete` statements at the top of `PATCH /tickets/:id`. -/
def stripProtected (body : List FieldSet) : List FieldSet :=
  body.filter (fun a => !isProtected a)

/-- Apply one `$set` assignment to a ticket document. -/
def setField (t : Ticket) : FieldSet → Ticket
  | .title v => { t with title := v }
  | .price v => { t with price := v }
  | .quantity v => { t with quantity := v }
  | .departure v => { t with departure := v }
  | .image v => { t with image := v }
  | .advertised v => { t with advertised := v }
  | .hidden v => { t with hidden := v }
  | .verificationStatus v => { t with verificationStatus := v }
  | .vendorEmail v => { t with vendorEmail := v }
  | .vendorName v => { t with vendorName := v }
  | .createdAt v => { t with createdAt := v }

/-- Mongo `$set` with a whole body: apply the assignments left to right. -/
def applySet (body : List FieldSet) (t : Ticket) : Ticket :=
  body.foldl setField t

/-- `PATCH /tickets/:id` from `index.js` (lines 434-468): strips the four
protected keys from the body, 404s when the ticket is missing, 403s when it
is `rejected`, and otherwise applies the remaining `$set`.  (This route has
no ownership check in this revision; part_002 adds one, which does not
affect the properties proved here.) -/
def patchTicket (db : DB) (ticketId : Nat) (body : List FieldSet) : Except Err DB :=
  let upd := stripProtected body
  match db.tickets.find? (fun t => t.tid == ticketId) with
  | none => .error .NotFound
  | some ticket =>
    if ticket.verificationStatus == "rejected" then .error .Forbidden
    else .ok { db with
      tickets := updateFirst (fun t => t.tid == ticketId) (applySet upd) db.tickets }

/-- `PUT /tickets/:id` from `index.js` (lines 695-721): 404 when missing,
403 when the caller is not the owning vendor, then applies the body as-is.
No key is stripped and the verification status is never consulted. -/
def putTicket (db : DB) (callerEmail : String) (ticketId : Nat)
    (body : List FieldSet) : Except Err DB :=
  match db.tickets.find? (fun t => t.tid == ticketId) with
  | none => .error .NotFound
  | some ticket =>
    if ticket.vendorEmail ≠ callerEmail then .error .Forbidden
    else .ok { db with
      tickets := updateFirst (fun t => t.tid == ticketId) (applySet body) db.tickets }

/-- `DELETE /tickets/:id` from `index.js` (lines 724-743): 404 when
missing, 403 when the caller is not the owner, 403 when the ticket is
`rejected`, otherwise `deleteOne`. -/
def deleteTicket (db : DB) (callerEmail : String) (ticketId : Nat) : Except Err DB :=
  match db.tickets.find? (fun t => t.tid == ticketId) with
  | none => .error .NotFound
  | some ticket =>
    if ticket.vendorEmail ≠ callerEmail then .error .Forbidden
    else if ticket.verificationStatus == "rejected" then .error .Forbidden
    else .ok { db with tickets := removeFirst (fun t => t.tid == ticketId) db.tickets }

/-- The operations that touch ticket stock or booking status, for stating
the inventory invariant over arbitrary interleavings. -/
inductive SysOp where
  | create (callerEmail customerEmail : String) (ticketId : Nat) (quantity : Int) (now : Int)
  | accept (callerEmail : String) (bookingId : Nat) (now : Int)
  | reject (callerEmail : String) (bookingId : Nat) (now : Int)
  | cancel (bookingId : Nat)
  | verify (s : Session) (now : Int)
  | paySuccess (s : Session) (now : Int)

/-- Post-state of one operation (an error reply leaves the store as it
was, since every handler errors out before its first write). -/
def stepOp (db : DB) : SysOp → DB
  | .create caller cust tid q n =>
    match postBooking db caller cust tid q n with
    | .ok (db2, _) => db2
    | .error _ => db
  | .accept caller bid n =>
    match acceptBooking db caller bid n with
    | .ok db2 => db2
    | .error _ => db
  | .reject caller bid n =>
    match rejectBooking db caller bid n with
    | .ok db2 => db2
    | .error _ => db
  | .cancel bid => paymentCancelled db bid
  | .verify s n =>
    match verifyPayment db s n with
    | .ok db2 => db2
    | .error _ => db
  | .paySuccess s n => (stripePaymentSuccess db s n).2

/-- Run a sequence of operations. -/
def runOps (db : DB) (ops : List SysOp) : DB :=
  ops.foldl stepOp db

/-- The inventory invariant: no ticket has negative stock, and every
booking carries a positive quantity (the latter is what makes releasing a
booking's quantity safe). -/
def qtyInv (db : DB) : Bool :=
  db.tickets.all (fun t => decide (0 ≤ t.quantity)) &&
  db.bookings.all (fun b => decide (0 < b.quantity))

/-- Concrete sample documents used to exercise the handlers on closed
inputs. -/
def sampleTicket : Ticket :=
  { tid := 0, vendorEmail := "v@x", vendorName := "V", title := "Dhaka-Khulna"
    price := 40, quantity := 5, departure := 100, image := "img"
    verificationStatus := "approved", advertised := false, hidden := false
    createdAt := 0 }

def sampleBooking : Booking :=
  { bid := 0, ticketId := 0, vendorEmail := "v@x", customerEmail := "c@x"
    title := "Dhaka-Khulna", price := 40, quantity := 2, status := "accepted"
    createdAt := 1, acceptedAt := some 2, rejectedAt := none, paidAt := none }

def sampleSession : Session :=
  { payment_status := "paid", bookingId := 0, ticketId := 0, quantityMeta := 2
    payment_intent := "pi_1", amount_total := 8000, currency := "usd" }

/-- The four ticket fields that the vendor PATCH route deletes from every
request body, bundled for frame statements. -/
def protectedView (t : Ticket) : String × String × String × Int :=
  (t.verificationStatus, t.vendorEmail, t.vendorName, t.createdAt)

/-! ## Generic lemmas about the store primitives -/

theorem updateFirst_of_forall_neg {p : α → Bool} {f : α → α} :
    ∀ {l : List α}, (∀ x ∈ l, p x = false) → updateFirst p f l = l := by
  intro l
  induction l with
  | nil => intro _; rfl
  | cons x xs ih =>
    intro h
    have hx : p x = false := h x (List.mem_cons_self x xs)
    have hxs := ih (fun y hy => h y (List.mem_cons_of_mem x hy))
    simp [updateFirst, hx, hxs]

theorem updateFirst_find?_eq {p : α → Bool} {f : α → α}
    (hf : ∀ x, p (f x) = p x) :
    ∀ l : List α, (updateFirst p f l).find? p = (l.find? p).map f := by
  intro l
  induction l with
  | nil => rfl
  | cons x xs ih =>
    cases hx : p x with
    | true =>
      have h1 : updateFirst p f (x :: xs) = f x :: xs := by simp [updateFirst, hx]
      have hfx : p (f x) = true := by rw [hf]; exact hx
      rw [h1, List.find?_cons_of_pos _ hfx, List.find?_cons_of_pos _ hx]
      rfl
    | false =>
      have h1 : updateFirst p f (x :: xs) = x :: updateFirst p f xs := by
        simp [updateFirst, hx]
      rw [h1, List.find?_cons_of_neg _ (by simp [hx]),
          List.find?_cons_of_neg _ (by simp [hx])]
      exact ih

theorem updateFirst_forall {P : α → Prop} {p : α → Bool} {f : α → α}
    (hf : ∀ x, P x → p x = true → P (f x)) :
    ∀ {l : List α}, (∀ x ∈ l, P x) → ∀ x ∈ updateFirst p f l, P x := by
  intro l
  induction l with
  | nil => intro _ x hx; cases hx
  | cons y ys ih =>
    intro h x hx
    by_cases hy : p y = true
    · simp only [updateFirst, hy, if_pos rfl] at hx
      rcases List.mem_cons.mp hx with h1 | h2
      · subst h1; exact hf y (h y (List.mem_cons_self y ys)) hy
      · exact h x (List.mem_cons_of_mem y h2)
    · simp only [updateFirst, if_neg hy] at hx
      rcases List.mem_cons.mp hx with h1 | h2
      · subst h1; exact h x (List.mem_cons_self x ys)
      · exact ih (fun z hz => h z (List.mem_cons_of_mem y hz)) x h2

theorem find?_append_left_none {p : α → Bool} {l1 l2 : List α}
    (h : l1.find? p = none) : (l1 ++ l2).find? p = l2.find? p := by
  induction l1 with
  | nil => rfl
  | cons x xs ih =>
    have hx : ¬ p x = true := by
      intro hpx
      exact (List.find?_eq_none.mp h x (List.mem_cons_self x xs)) hpx
    rw [List.cons_append, List.find?_cons_of_neg _ hx]
    exact ih (by
      rw [List.find?_eq_none] at h ⊢
      intro y hy
      exact h y (List.mem_cons_of_mem x hy))

theorem find?_of_countP_zero {p : α → Bool} {l : List α}
    (h : l.countP p = 0) : l.find? p = none := by
  rw [List.find?_eq_none]
  intro x hx hpx
  have := List.countP_eq_zero.mp h x hx
  simp [hpx] at this

/-! ## Evaluation lemmas for the payment-verification handlers -/

theorem verifyPayment_insert_eq (db : DB) (s : Session) (n : Int) (b : Booking)
    (hs : s.payment_status = "paid")
    (hbf : db.bookings.find? (fun x => x.bid == s.bookingId) = some b)
    (hpn : db.payments.find? (fun p => p.transactionId == s.payment_intent) = none) :
    verifyPayment db s n = .ok { db with
      payments := db.payments ++
        [{ bookingId := s.bookingId
           ticketId := b.ticketId
           customerEmail := b.customerEmail
           ticketTitle := b.title
           amountCents := s.amount_total
           quantity := b.quantity
           currency := s.currency
           transactionId := s.payment_intent
           paidAt := n }]
      bookings := updateFirst (fun x => x.bid == s.bookingId)
        (fun x => { x with status := "paid", paidAt := some n }) db.bookings } := by
  unfold verifyPayment
  rw [if_neg (by simp [hs]), hbf, hpn]
  simp

theorem verifyPayment_dup_eq (db : DB) (s : Session) (n : Int) (b : Booking)
    (hs : s.payment_status = "paid")
    (hbf : db.bookings.find? (fun x => x.bid == s.bookingId) = some b)
    (hps : (db.payments.find? (fun p => p.transactionId == s.payment_intent)).isSome = true) :
    verifyPayment db s n = .ok db := by
  unfold verifyPayment
  rw [if_neg (by simp [hs]), hbf]
  simp [hps]

theorem stripeSuccess_insert_eq (db : DB) (s : Session) (n : Int) (b : Booking)
    (hs : s.payment_status = "paid")
    (hbf : db.bookings.find? (fun x => x.bid == s.bookingId) = some b)
    (hpn : db.payments.find? (fun p => p.transactionId == s.payment_intent) = none) :
    stripePaymentSuccess db s n = (.success, { db with
      bookings := updateFirst (fun x => x.bid == s.bookingId)
        (fun x => { x with status := "paid", paidAt := some n }) db.bookings
      tickets := updateFirst
        (fun t => t.tid == s.ticketId && decide (s.quantityMeta ≤ t.quantity))
        (fun t => { t with quantity := t.quantity - s.quantityMeta }) db.tickets
      payments := db.payments ++
        [{ bookingId := s.bookingId
           ticketId := s.ticketId
           customerEmail := b.customerEmail
           ticketTitle := ""
           amountCents := s.amount_total
           quantity := b.quantity
           currency := s.currency
           transactionId := s.payment_intent
           paidAt := n }] }) := by
  unfold stripePaymentSuccess
  rw [if_neg (by simp [hs])]
  simp only [hbf, hpn, Option.isSome_none]
  simp

theorem stripeSuccess_dup_eq (db : DB) (s : Session) (n : Int) (b : Booking)
    (hs : s.payment_status = "paid")
    (hbf : db.bookings.find? (fun x => x.bid == s.bookingId) = some b)
    (hps : (db.payments.find? (fun p => p.transactionId == s.payment_intent)).isSome = true) :
    stripePaymentSuccess db s n = (.success, db) := by
  unfold stripePaymentSuccess
  rw [if_neg (by simp [hs])]
  simp only [hbf, hps]
  simp

/-! ## C1: payment verification is idempotent per external transaction id -/

/-- C1.  For both payment-verification handlers (`POST /payments/verify`
in part_002 and `GET /stripe/payment-success` in `index.js`): if
verification runs twice with the same external transaction id
(`session.payment_intent`) and the first run succeeds (paid session,
booking present, no Payment for that id yet), then afterwards exactly one
Payment with that `transactionId` exists, the booking has been moved to
`paid` (stamped by the first run), and the second run is a no-op success
returning the store exactly as the first run left it. -/
theorem verify_twice_idempotent (db : DB) (s : Session) (n1 n2 : Int)
    (hs : s.payment_status = "paid")
    (hb : (db.bookings.find? (fun b => b.bid == s.bookingId)).isSome = true)
    (hp : db.payments.countP (fun p => p.transactionId == s.payment_intent) = 0) :
    (∃ db1, verifyPayment db s n1 = .ok db1 ∧
      db1.payments.countP (fun p => p.transactionId == s.payment_intent) = 1 ∧
      (db1.bookings.find? (fun b => b.bid == s.bookingId)).map
        (fun b => (b.status, b.paidAt)) = some ("paid", some n1) ∧
      verifyPayment db1 s n2 = .ok db1) ∧
    (∃ db2, stripePaymentSuccess db s n1 = (.success, db2) ∧
      db2.payments.countP (fun p => p.transactionId == s.payment_intent) = 1 ∧
      (db2.bookings.find? (fun b => b.bid == s.bookingId)).map
        (fun b => (b.status, b.paidAt)) = some ("paid", some n1) ∧
      stripePaymentSuccess db2 s n2 = (.success, db2)) := by
  obtain ⟨b, hbf⟩ : ∃ b, db.bookings.find? (fun x => x.bid == s.bookingId) = some b := by
    cases h : db.bookings.find? (fun x => x.bid == s.bookingId) with
    | none => rw [h] at hb; cases hb
    | some b => exact ⟨b, rfl⟩
  have hpn : db.payments.find? (fun p => p.transactionId == s.payment_intent) = none :=
    find?_of_countP_zero hp
  have hbupd : ∀ n : Int,
      ((updateFirst (fun x => x.bid == s.bookingId)
          (fun x => { x with status := "paid", paidAt := some n }) db.bookings).find?
          (fun x => x.bid == s.bookingId)).map (fun x => (x.status, x.paidAt))
        = some ("paid", some n) := by
    intro n
    rw [updateFirst_find?_eq (p := fun x : Booking => x.bid == s.bookingId)
        (f := fun x : Booking => { x with status := "paid", paidAt := some n })
        (fun x => rfl), hbf]
    rfl
  have hbupd2 : ∀ n : Int,
      (updateFirst (fun x => x.bid == s.bookingId)
          (fun x => { x with status := "paid", paidAt := some n }) db.bookings).find?
          (fun x => x.bid == s.bookingId)
        = some { b with status := "paid", paidAt := some n } := by
    intro n
    rw [updateFirst_find?_eq (p := fun x : Booking => x.bid == s.bookingId)
        (f := fun x : Booking => { x with status := "paid", paidAt := some n })
        (fun x => rfl), hbf]
    rfl
  constructor
  · refine ⟨_, verifyPayment_insert_eq db s n1 b hs hbf hpn, ?_, ?_, ?_⟩
    · simp [List.countP_append, hp, List.countP_cons]
    · exact hbupd n1
    · refine verifyPayment_dup_eq _ s n2 { b with status := "paid", paidAt := some n1 }
        hs (hbupd2 n1) ?_
      rw [find?_append_left_none hpn]
      simp [List.find?_cons_of_pos]
  · refine ⟨_, stripeSuccess_insert_eq db s n1 b hs hbf hpn, ?_, ?_, ?_⟩
    · simp [List.countP_append, hp, List.countP_cons]
    · exact hbupd n1
    · refine stripeSuccess_dup_eq _ s n2 { b with status := "paid", paidAt := some n1 }
        hs (hbupd2 n1) ?_
      rw [find?_append_left_none hpn]
      simp [List.find?_cons_of_pos]

/-- Witness for C1 at a concrete store: one accepted booking, no payments
yet, a paid session carrying transaction id `pi_1`. -/
theorem verify_twice_idempotent_witness :
    (sampleSession.payment_status = "paid" ∧
     ((DB.mk [sampleTicket] [sampleBooking] []).bookings.find?
        (fun b => b.bid == sampleSession.bookingId)).isSome = true ∧
     (DB.mk [sampleTicket] [sampleBooking] []).payments.countP
        (fun p => p.transactionId == sampleSession.payment_intent) = 0) ∧
    ((∃ db1, verifyPayment (DB.mk [sampleTicket] [sampleBooking] []) sampleSession 5 = .ok db1 ∧
      db1.payments.countP (fun p => p.transactionId == sampleSession.payment_intent) = 1 ∧
      (db1.bookings.find? (fun b => b.bid == sampleSession.bookingId)).map
        (fun b => (b.status, b.paidAt)) = some ("paid", some 5) ∧
      verifyPayment db1 sampleSession 6 = .ok db1) ∧
    (∃ db2, stripePaymentSuccess (DB.mk [sampleTicket] [sampleBooking] []) sampleSession 5 = (.success, db2) ∧
      db2.payments.countP (fun p => p.transactionId == sampleSession.payment_intent) = 1 ∧
      (db2.bookings.find? (fun b => b.bid == sampleSession.bookingId)).map
        (fun b => (b.status, b.paidAt)) = some ("paid", some 5) ∧
      stripePaymentSuccess db2 sampleSession 6 = (.success, db2))) :=
  ⟨⟨rfl, by decide, by decide⟩,
   verify_twice_idempotent (DB.mk [sampleTicket] [sampleBooking] []) sampleSession 5 6
     rfl (by decide) (by decide)⟩

/-! ## Shape lemmas: what a successful handler run did to the store -/

theorem postBooking_ok_shape (db : DB) (a c : String) (tid : Nat) (q n : Int)
    (d2 : DB) (k : Nat) (hok : postBooking db a c tid q n = .ok (d2, k)) :
    0 < q ∧
    d2.tickets = (reserveUpd tid q db.tickets).2 ∧
    (∃ nb : Booking, d2.bookings = db.bookings ++ [nb] ∧ nb.quantity = q) ∧
    d2.payments = db.payments := by
  unfold postBooking at hok
  split at hok
  · cases hok
  · split at hok
    · cases hok
    · rename_i hq
      split at hok
      · cases hok
      · split at hok
        · cases hok
        · dsimp only at hok
          split at hok
          · cases hok
          · cases hok
            exact ⟨by omega, rfl, ⟨_, rfl, rfl⟩, rfl⟩

theorem acceptBooking_ok_shape (db : DB) (a : String) (bid : Nat) (n : Int) (d2 : DB)
    (hok : acceptBooking db a bid n = .ok d2) :
    d2.tickets = db.tickets ∧
    d2.bookings = updateFirst (fun b => b.bid == bid)
      (fun b => { b with status := "accepted", acceptedAt := some n }) db.bookings ∧
    d2.payments = db.payments := by
  unfold acceptBooking at hok
  split at hok
  · cases hok
  · split at hok
    · cases hok
    · split at hok
      · cases hok
      · cases hok
        exact ⟨rfl, rfl, rfl⟩

theorem rejectBooking_ok_shape (db : DB) (a : String) (bid : Nat) (n : Int) (d2 : DB)
    (hok : rejectBooking db a bid n = .ok d2) :
    ∃ bk, db.bookings.find? (fun b => b.bid == bid) = some bk ∧
      d2.tickets = updateFirst (fun t => t.tid == bk.ticketId)
        (fun t => { t with quantity := t.quantity + bk.quantity }) db.tickets ∧
      d2.bookings = updateFirst (fun b => b.bid == bid)
        (fun b => { b with status := "rejected", rejectedAt := some n }) db.bookings ∧
      d2.payments = db.payments := by
  unfold rejectBooking at hok
  split at hok
  · cases hok
  · rename_i bk hbk
    split at hok
    · cases hok
    · split at hok
      · cases hok
      · dsimp only at hok
        cases hok
        exact ⟨bk, hbk, rfl, rfl, rfl⟩

theorem verifyPayment_ok_shape (db : DB) (s : Session) (n : Int) (d2 : DB)
    (hok : verifyPayment db s n = .ok d2) :
    d2.tickets = db.tickets ∧
    (d2.bookings = db.bookings ∨
     d2.bookings = updateFirst (fun b => b.bid == s.bookingId)
       (fun b => { b with status := "paid", paidAt := some n }) db.bookings) := by
  unfold verifyPayment at hok
  split at hok
  · cases hok
  · split at hok
    · cases hok
    · split at hok
      · cases hok
        exact ⟨rfl, Or.inl rfl⟩
      · dsimp only at hok
        cases hok
        exact ⟨rfl, Or.inr rfl⟩

theorem paymentCancelled_cases (db : DB) (bid : Nat) :
    paymentCancelled db bid = db ∨
    ∃ bk, db.bookings.find? (fun b => b.bid == bid) = some bk ∧
      paymentCancelled db bid = { db with
        tickets := updateFirst (fun t => t.tid == bk.ticketId)
          (fun t => { t with quantity := t.quantity + bk.quantity }) db.tickets
        bookings := updateFirst (fun b => b.bid == bid)
          (fun b => { b with status := "cancelled" }) db.bookings } := by
  unfold paymentCancelled
  split
  · left; rfl
  · rename_i bk hbk
    split
    · right; exact ⟨bk, hbk, rfl⟩
    · left; rfl

theorem stripeSuccess_cases (db : DB) (s : Session) (n : Int) :
    (stripePaymentSuccess db s n).2 = db ∨
    ((stripePaymentSuccess db s n).2.tickets = updateFirst
        (fun t => t.tid == s.ticketId && decide (s.quantityMeta ≤ t.quantity))
        (fun t => { t with quantity := t.quantity - s.quantityMeta }) db.tickets ∧
     (stripePaymentSuccess db s n).2.bookings = updateFirst (fun b => b.bid == s.bookingId)
        (fun b => { b with status := "paid", paidAt := some n }) db.bookings) := by
  unfold stripePaymentSuccess
  split
  · left; rfl
  · dsimp only
    split
    · left; rfl
    · split
      · left; rfl
      · right
        exact ⟨rfl, rfl⟩

/-! ## Quantity-preservation lemmas for the three ticket writes -/

theorem nonneg_after_guardedDec {ts : List Ticket} (tid : Nat) (q : Int)
    (h : ∀ t ∈ ts, 0 ≤ t.quantity) :
    ∀ t ∈ updateFirst (fun t => t.tid == tid && decide (q ≤ t.quantity))
        (fun t => { t with quantity := t.quantity - q }) ts, 0 ≤ t.quantity := by
  refine updateFirst_forall ?_ h
  intro x _ hx
  have hqx : q ≤ x.quantity := of_decide_eq_true ((Bool.and_eq_true _ _).mp hx).2
  show 0 ≤ x.quantity - q
  omega

theorem nonneg_after_inc {ts : List Ticket} (tid : Nat) (q : Int) (hq : 0 ≤ q)
    (h : ∀ t ∈ ts, 0 ≤ t.quantity) :
    ∀ t ∈ updateFirst (fun t => t.tid == tid)
        (fun t => { t with quantity := t.quantity + q }) ts, 0 ≤ t.quantity := by
  refine updateFirst_forall ?_ h
  intro x hx _
  show 0 ≤ x.quantity + q
  omega

theorem pos_after_statusUpd {bs : List Booking} {p : Booking → Bool} {f : Booking → Booking}
    (hf : ∀ b, (f b).quantity = b.quantity)
    (h : ∀ b ∈ bs, 0 < b.quantity) :
    ∀ b ∈ updateFirst p f bs, 0 < b.quantity := by
  refine updateFirst_forall ?_ h
  intro x hx _
  rw [hf]
  exact hx

theorem qtyInv_iff {db : DB} : qtyInv db = true ↔
    ((∀ t ∈ db.tickets, 0 ≤ t.quantity) ∧ (∀ b ∈ db.bookings, 0 < b.quantity)) := by
  simp [qtyInv, List.all_eq_true]

theorem stepOp_qtyInv {db : DB} (op : SysOp) (h : qtyInv db = true) :
    qtyInv (stepOp db op) = true := by
  rcases qtyInv_iff.mp h with ⟨ht, hb⟩
  cases op with
  | create a c tid q n =>
    cases hres : postBooking db a c tid q n with
    | error e => simpa [stepOp, hres] using h
    | ok pr =>
      obtain ⟨d2, k⟩ := pr
      obtain ⟨hq, hts, ⟨nb, hbs, hnb⟩, -⟩ := postBooking_ok_shape db a c tid q n d2 k hres
      have : stepOp db (.create a c tid q n) = d2 := by simp [stepOp, hres]
      rw [this]
      refine qtyInv_iff.mpr ⟨?_, ?_⟩
      · rw [hts]
        exact nonneg_after_guardedDec tid q ht
      · rw [hbs]
        intro b hbmem
        rcases List.mem_append.mp hbmem with h1 | h2
        · exact hb b h1
        · rcases List.mem_singleton.mp h2 with rfl
          omega
  | accept a bid n =>
    cases hres : acceptBooking db a bid n with
    | error e => simpa [stepOp, hres] using h
    | ok d2 =>
      obtain ⟨hts, hbs, -⟩ := acceptBooking_ok_shape db a bid n d2 hres
      have : stepOp db (.accept a bid n) = d2 := by simp [stepOp, hres]
      rw [this]
      refine qtyInv_iff.mpr ⟨hts ▸ ht, ?_⟩
      · rw [hbs]
        exact pos_after_statusUpd (fun b => rfl) hb
  | reject a bid n =>
    cases hres : rejectBooking db a bid n with
    | error e => simpa [stepOp, hres] using h
    | ok d2 =>
      obtain ⟨bk, hbk, hts, hbs, -⟩ := rejectBooking_ok_shape db a bid n d2 hres
      have hbkpos : 0 < bk.quantity := hb bk (List.mem_of_find?_eq_some hbk)
      have : stepOp db (.reject a bid n) = d2 := by simp [stepOp, hres]
      rw [this]
      refine qtyInv_iff.mpr ⟨?_, ?_⟩
      · rw [hts]
        exact nonneg_after_inc bk.ticketId bk.quantity (by omega) ht
      · rw [hbs]
        exact pos_after_statusUpd (fun b => rfl) hb
  | cancel bid =>
    rcases paymentCancelled_cases db bid with hsame | ⟨bk, hbk, heq⟩
    · have : stepOp db (.cancel bid) = db := hsame
      rw [this]; exact h
    · have hbkpos : 0 < bk.quantity := hb bk (List.mem_of_find?_eq_some hbk)
      have : stepOp db (.cancel bid) = _ := heq
      rw [this]
      refine qtyInv_iff.mpr ⟨?_, ?_⟩
      · exact nonneg_after_inc bk.ticketId bk.quantity (by omega) ht
      · exact pos_after_statusUpd (fun b => rfl) hb
  | verify s n =>
    cases hres : verifyPayment db s n with
    | error e => simpa [stepOp, hres] using h
    | ok d2 =>
      obtain ⟨hts, hbs⟩ := verifyPayment_ok_shape db s n d2 hres
      have : stepOp db (.verify s n) = d2 := by simp [stepOp, hres]
      rw [this]
      refine qtyInv_iff.mpr ⟨hts ▸ ht, ?_⟩
      rcases hbs with h1 | h2
      · rw [h1]; exact hb
      · rw [h2]
        exact pos_after_statusUpd (fun b => rfl) hb
  | paySuccess s n =>
    rcases stripeSuccess_cases db s n with hsame | ⟨hts, hbs⟩
    · have : stepOp db (.paySuccess s n) = db := hsame
      rw [this]; exact h
    · have : stepOp db (.paySuccess s n) = (stripePaymentSuccess db s n).2 := rfl
      rw [this]
      refine qtyInv_iff.mpr ⟨?_, ?_⟩
      · rw [hts]
        exact nonneg_after_guardedDec s.ticketId s.quantityMeta ht
      · rw [hbs]
        exact pos_after_statusUpd (fun b => rfl) hb

/-! ## C2: ticket stock is never negative -/

/-- C2.  Starting from any store satisfying the inventory invariant (no
negative ticket stock, positive booking quantities), after any sequence —
hence any prefix of any sequence — of booking-creation, accept, reject,
cancel and payment-finalization operations (both finalization handlers),
every ticket still has non-negative quantity. -/
theorem ticket_quantity_never_negative (db : DB) (ops : List SysOp)
    (h : qtyInv db = true) :
    (runOps db ops).tickets.all (fun t => decide (0 ≤ t.quantity)) = true := by
  have hinv : qtyInv (runOps db ops) = true := by
    induction ops generalizing db with
    | nil => exact h
    | cons op ops ih => exact ih (stepOp db op) (stepOp_qtyInv op h)
  simp only [qtyInv, Bool.and_eq_true] at hinv
  exact hinv.1

/-- Witness for C2: a concrete store and a concrete sequence that creates
a booking, rejects it, and replays a payment confirmation. -/
theorem ticket_quantity_never_negative_witness :
    qtyInv (DB.mk [sampleTicket] [sampleBooking] []) = true ∧
    (runOps (DB.mk [sampleTicket] [sampleBooking] [])
        [SysOp.create "c@x" "c@x" 0 5 3, SysOp.reject "v@x" 1 4,
         SysOp.paySuccess sampleSession 5, SysOp.cancel 0]).tickets.all
      (fun t => decide (0 ≤ t.quantity)) = true :=
  ⟨by decide,
   ticket_quantity_never_negative (DB.mk [sampleTicket] [sampleBooking] [])
     [SysOp.create "c@x" "c@x" 0 5 3, SysOp.reject "v@x" 1 4,
      SysOp.paySuccess sampleSession 5, SysOp.cancel 0] (by decide)⟩

/-! ## C3: reservation is a single atomic conditional write -/

theorem updateFirst_guard_eq_map {tid : Nat} {q : Int} :
    ∀ {ts : List Ticket} {t : Ticket}, (ts.map Ticket.tid).Nodup → t ∈ ts →
      t.tid = tid → q ≤ t.quantity →
      updateFirst (fun u => u.tid == tid && decide (q ≤ u.quantity))
        (fun u => { u with quantity := u.quantity - q }) ts =
      ts.map (fun u => if u.tid == tid then { u with quantity := u.quantity - q } else u) := by
  intro ts
  induction ts with
  | nil => intro t _ hmem _ _; cases hmem
  | cons x xs ih =>
    intro t hU hmem hid hq
    rw [List.map_cons, List.nodup_cons] at hU
    obtain ⟨hxnot, hU2⟩ := hU
    rcases List.mem_cons.mp hmem with rfl | hmem2
    · have hbx : (t.tid == tid) = true := by simp [hid]
      have hpx : (t.tid == tid && decide (q ≤ t.quantity)) = true := by simp [hid, hq]
      have hstep : updateFirst (fun u => u.tid == tid && decide (q ≤ u.quantity))
          (fun u => { u with quantity := u.quantity - q }) (t :: xs) =
          { t with quantity := t.quantity - q } :: xs := by
        simp [updateFirst, hpx]
      rw [hstep, List.map_cons]
      simp only [hbx, if_true]
      have htail : ∀ u ∈ xs,
          (if u.tid == tid then { u with quantity := u.quantity - q } else u) = u := by
        intro u hu
        have hne : ¬ u.tid = tid := by
          intro hcontra
          refine hxnot ?_
          have : t.tid = u.tid := by rw [hid, hcontra]
          rw [this]
          exact List.mem_map_of_mem Ticket.tid hu
        simp [hne]
      rw [List.map_congr_left htail, List.map_id']
    · have hxne : ¬ x.tid = tid := by
        intro hcontra
        refine hxnot ?_
        have : x.tid = t.tid := by rw [hid, hcontra]
        rw [this]
        exact List.mem_map_of_mem Ticket.tid hmem2
      have hpx : (x.tid == tid && decide (q ≤ x.quantity)) = false := by simp [hxne]
      have hstep : updateFirst (fun u => u.tid == tid && decide (q ≤ u.quantity))
          (fun u => { u with quantity := u.quantity - q }) (x :: xs) =
          x :: updateFirst (fun u => u.tid == tid && decide (q ≤ u.quantity))
            (fun u => { u with quantity := u.quantity - q }) xs := by
        simp [updateFirst, hpx]
      rw [hstep, List.map_cons]
      simp only [hxne, if_neg (by simp [hxne] : ¬ (x.tid == tid) = true)]
      rw [ih hU2 hmem2 hid hq]

theorem reserveUpd_success_eq {ts : List Ticket} {t : Ticket} {tid : Nat} {q : Int}
    (hU : (ts.map Ticket.tid).Nodup) (hmem : t ∈ ts) (hid : t.tid = tid)
    (hq : q ≤ t.quantity) :
    reserveUpd tid q ts =
      (true, ts.map fun u => if u.tid == tid then { u with quantity := u.quantity - q } else u) := by
  simp only [reserveUpd, Prod.mk.injEq]
  constructor
  · rw [List.any_eq_true]
    exact ⟨t, hmem, by simp [hid, hq]⟩
  · exact updateFirst_guard_eq_map hU hmem hid hq

theorem reserveUpd_fail_eq {ts : List Ticket} {t : Ticket} {tid : Nat} {q : Int}
    (hU : (ts.map Ticket.tid).Nodup) (hmem : t ∈ ts) (hid : t.tid = tid)
    (hq : t.quantity < q) :
    reserveUpd tid q ts = (false, ts) := by
  have hall : ∀ u ∈ ts, (u.tid == tid && decide (q ≤ u.quantity)) = false := by
    intro u hu
    by_cases hut : u.tid = tid
    · have hut2 : u = t := List.inj_on_of_nodup_map hU hu hmem (by rw [hut, hid])
      subst hut2
      have : ¬ (q ≤ u.quantity) := by omega
      simp [this]
    · simp [hut]
  simp only [reserveUpd, Prod.mk.injEq]
  constructor
  · rw [List.any_eq_false]
    intro u hu
    simp [hall u hu]
  · exact updateFirst_of_forall_neg hall

/-- C3.  `reserve` in `POST /bookings` is the single conditional write
`updateOne({_id, quantity: {$gte: qty}}, {$inc: {quantity: -qty}})`
(see `reserveUpd`): given a stock of `t.quantity` for the ticket, a reserve
of `q` units decrements the quantity by exactly `q` when `q ≤ t.quantity`,
and otherwise reports `InsufficientStock` (`modifiedCount = 0`) leaving the
collection untouched.  Because check and decrement are one write, two
consecutive successful reserves can never oversell: their quantities sum
to at most the initial stock (third conjunct). -/
theorem reserve_conditional_write (ts : List Ticket) (t : Ticket) (tid : Nat) (q : Int)
    (hU : (ts.map Ticket.tid).Nodup) (hmem : t ∈ ts) (hid : t.tid = tid) (hq : 0 < q) :
    (q ≤ t.quantity →
      reserveUpd tid q ts =
        (true, ts.map fun u => if u.tid == tid then { u with quantity := u.quantity - q } else u)) ∧
    (t.quantity < q → reserveUpd tid q ts = (false, ts)) ∧
    (∀ q2 ts1, reserveUpd tid q ts = (true, ts1) →
      (reserveUpd tid q2 ts1).1 = true → q + q2 ≤ t.quantity) := by
  refine ⟨fun hle => reserveUpd_success_eq hU hmem hid hle,
          fun hlt => reserveUpd_fail_eq hU hmem hid hlt, ?_⟩
  intro q2 ts1 h1 h2
  have hle : q ≤ t.quantity := by
    by_contra hcon
    rw [reserveUpd_fail_eq hU hmem hid (by omega)] at h1
    cases h1
  have hts1 : ts1 = ts.map fun u =>
      if u.tid == tid then { u with quantity := u.quantity - q } else u := by
    have h3 := reserveUpd_success_eq hU hmem hid hle
    rw [h1] at h3
    exact ((Prod.mk.injEq ..).mp h3).2
  have hU1 : (ts1.map Ticket.tid).Nodup := by
    rw [hts1, List.map_map]
    have : ∀ u ∈ ts, (Ticket.tid ∘ fun u =>
        if u.tid == tid then { u with quantity := u.quantity - q } else u) u = Ticket.tid u := by
      intro u _
      by_cases hut : (u.tid == tid) = true
      · simp [Function.comp, hut]
      · simp [Function.comp, hut]
    rw [List.map_congr_left this]
    exact hU
  have hmem1 : { t with quantity := t.quantity - q } ∈ ts1 := by
    rw [hts1]
    have : ({ t with quantity := t.quantity - q } : Ticket) =
        (fun u => if u.tid == tid then { u with quantity := u.quantity - q } else u) t := by
      simp [hid]
    rw [this]
    exact List.mem_map_of_mem _ hmem
  have hle2 : q2 ≤ t.quantity - q := by
    by_contra hcon
    rw [reserveUpd_fail_eq hU1 hmem1 hid (by simp; omega)] at h2
    cases h2
  omega

/-- Witness for C3 at a concrete inventory with stock 5 and a reserve of
2 units. -/
theorem reserve_conditional_write_witness :
    (([sampleTicket].map Ticket.tid).Nodup ∧ sampleTicket ∈ [sampleTicket] ∧
     sampleTicket.tid = 0 ∧ (0 : Int) < 2) ∧
    ((2 ≤ sampleTicket.quantity →
      reserveUpd 0 2 [sampleTicket] =
        (true, [sampleTicket].map fun u =>
          if u.tid == 0 then { u with quantity := u.quantity - 2 } else u)) ∧
    (sampleTicket.quantity < 2 → reserveUpd 0 2 [sampleTicket] = (false, [sampleTicket])) ∧
    (∀ q2 ts1, reserveUpd 0 2 [sampleTicket] = (true, ts1) →
      (reserveUpd 0 q2 ts1).1 = true → 2 + q2 ≤ sampleTicket.quantity)) :=
  ⟨⟨by decide, by decide, by decide, by decide⟩,
   reserve_conditional_write [sampleTicket] sampleTicket 0 2
     (by decide) (by decide) (by decide) (by decide)⟩

/-! ## Evaluation lemmas for `POST /bookings` -/

theorem postBooking_forbidden_eq (db : DB) (a c : String) (tid : Nat) (q n : Int)
    (h : c ≠ a) : postBooking db a c tid q n = .error .Forbidden := by
  unfold postBooking
  rw [if_pos h]

theorem postBooking_validation_eq (db : DB) (a : String) (tid : Nat) (q n : Int)
    (h : q ≤ 0) : postBooking db a a tid q n = .error .ValidationError := by
  unfold postBooking
  rw [if_neg (by simp), if_pos h]

theorem postBooking_notfound_eq (db : DB) (a : String) (tid : Nat) (q n : Int)
    (hq : 0 < q) (hf : db.tickets.find? (fun t => t.tid == tid) = none) :
    postBooking db a a tid q n = .error .NotFound := by
  unfold postBooking
  rw [if_neg (by simp), if_neg (by omega), hf]

theorem postBooking_notapproved_eq (db : DB) (a : String) (tid : Nat) (q n : Int)
    (t : Ticket) (hq : 0 < q) (hf : db.tickets.find? (fun t => t.tid == tid) = some t)
    (hs : t.verificationStatus ≠ "approved") :
    postBooking db a a tid q n = .error .NotApproved := by
  unfold postBooking
  rw [if_neg (by simp), if_neg (by omega), hf]
  dsimp only
  rw [if_pos hs]

theorem postBooking_insufficient_eq (db : DB) (a : String) (tid : Nat) (q n : Int)
    (t : Ticket) (hU : (db.tickets.map Ticket.tid).Nodup) (hq : 0 < q)
    (hf : db.tickets.find? (fun t => t.tid == tid) = some t)
    (hs : t.verificationStatus = "approved") (hlt : t.quantity < q) :
    postBooking db a a tid q n = .error .InsufficientStock := by
  have hmem : t ∈ db.tickets := List.mem_of_find?_eq_some hf
  have hid : t.tid = tid := by simpa using List.find?_some hf
  have hres := reserveUpd_fail_eq hU hmem hid hlt
  unfold postBooking
  rw [if_neg (by simp), if_neg (by omega), hf]
  dsimp only
  rw [if_neg (by simp [hs]), hres]
  simp

theorem postBooking_success_eq (db : DB) (a : String) (tid : Nat) (q n : Int)
    (t : Ticket) (hU : (db.tickets.map Ticket.tid).Nodup) (hq : 0 < q)
    (hf : db.tickets.find? (fun t => t.tid == tid) = some t)
    (hs : t.verificationStatus = "approved") (hle : q ≤ t.quantity) :
    postBooking db a a tid q n = .ok
      ({ db with
         tickets := db.tickets.map fun u =>
           if u.tid == tid then { u with quantity := u.quantity - q } else u
         bookings := db.bookings ++
           [{ bid := db.bookings.length, ticketId := t.tid, vendorEmail := t.vendorEmail,
              customerEmail := a, title := t.title, price := t.price, quantity := q,
              status := "pending", createdAt := n, acceptedAt := none, rejectedAt := none,
              paidAt := none }] },
       db.bookings.length) := by
  have hmem : t ∈ db.tickets := List.mem_of_find?_eq_some hf
  have hid : t.tid = tid := by simpa using List.find?_some hf
  have hres := reserveUpd_success_eq hU hmem hid hle
  unfold postBooking
  rw [if_neg (by simp), if_neg (by omega), hf]
  dsimp only
  rw [if_neg (by simp [hs]), hres]
  simp

theorem postBooking_ok_inv (db : DB) (a c : String) (tid : Nat) (q n : Int)
    (hU : (db.tickets.map Ticket.tid).Nodup) (d2 : DB) (k : Nat)
    (hok : postBooking db a c tid q n = .ok (d2, k)) :
    c = a ∧ 0 < q ∧ ∃ t, db.tickets.find? (fun u => u.tid == tid) = some t ∧
      t.verificationStatus = "approved" ∧ q ≤ t.quantity := by
  unfold postBooking at hok
  split at hok
  · cases hok
  · rename_i hca
    split at hok
    · cases hok
    · rename_i hq
      split at hok
      · cases hok
      · rename_i t ht
        split at hok
        · cases hok
        · rename_i hs
          dsimp only at hok
          split at hok
          · cases hok
          · rename_i hr
            have hr2 : (reserveUpd tid q db.tickets).1 = true := by
              by_contra hcon
              rw [Bool.not_eq_true] at hcon
              rw [hcon] at hr
              exact hr rfl
            have hany := hr2
            rw [show (reserveUpd tid q db.tickets).1 =
                db.tickets.any (fun u => u.tid == tid && decide (q ≤ u.quantity)) from rfl,
              List.any_eq_true] at hany
            obtain ⟨u, hu, hpu⟩ := hany
            obtain ⟨hut, huq⟩ := Bool.and_eq_true .. |>.mp hpu
            have hmt : t ∈ db.tickets := List.mem_of_find?_eq_some ht
            have htt : t.tid = tid := by simpa using List.find?_some ht
            have hueq : u = t := by
              refine List.inj_on_of_nodup_map hU hu hmt ?_
              rw [htt]
              simpa using hut
            subst hueq
            exact ⟨not_not.mp hca, by omega, u, ht, not_not.mp hs,
              of_decide_eq_true huq⟩

/-! ## C4: preconditions and error taxonomy of booking creation -/

/-- C4 counterexample.  `POST /bookings` never consults the `hidden` flag:
in a store whose only ticket is approved but hidden, a well-formed booking
request by the customer succeeds, contradicting the claim that creation
succeeds only when `hidden` is not true. -/
theorem booking_ignores_hidden_counterexample :
    (DB.mk [{ sampleTicket with hidden := true }] [] []).tickets.map Ticket.hidden
      = [true] ∧
    exOk (postBooking (DB.mk [{ sampleTicket with hidden := true }] [] [])
      "c@x" "c@x" 0 1 3) = true :=
  ⟨rfl, by decide⟩

/-- C4 (amended).  Characterization of `POST /bookings` as implemented:
creation succeeds exactly when the caller is the customer, the quantity is
positive, the ticket exists, is `approved` (hidden or not — the `hidden`
flag is never consulted), and the quantity does not exceed the stock; it
fails `Forbidden` when the caller is not the customer, `ValidationError`
on a non-positive quantity, `NotFound` when the ticket is absent,
`NotApproved` when it is not approved, and `InsufficientStock` when the
quantity exceeds availability. -/
theorem booking_create_characterization (db : DB) (a c : String) (tid : Nat)
    (q n : Int) (hU : (db.tickets.map Ticket.tid).Nodup) :
    (c ≠ a → postBooking db a c tid q n = .error .Forbidden) ∧
    (q ≤ 0 → postBooking db a a tid q n = .error .ValidationError) ∧
    (0 < q → db.tickets.find? (fun u => u.tid == tid) = none →
      postBooking db a a tid q n = .error .NotFound) ∧
    (∀ t, 0 < q → db.tickets.find? (fun u => u.tid == tid) = some t →
      t.verificationStatus ≠ "approved" →
      postBooking db a a tid q n = .error .NotApproved) ∧
    (∀ t, 0 < q → db.tickets.find? (fun u => u.tid == tid) = some t →
      t.verificationStatus = "approved" → t.quantity < q →
      postBooking db a a tid q n = .error .InsufficientStock) ∧
    (∀ t, 0 < q → db.tickets.find? (fun u => u.tid == tid) = some t →
      t.verificationStatus = "approved" → q ≤ t.quantity →
      postBooking db a a tid q n = .ok
        ({ db with
           tickets := db.tickets.map fun u =>
             if u.tid == tid then { u with quantity := u.quantity - q } else u
           bookings := db.bookings ++
             [{ bid := db.bookings.length, ticketId := t.tid, vendorEmail := t.vendorEmail,
                customerEmail := a, title := t.title, price := t.price, quantity := q,
                status := "pending", createdAt := n, acceptedAt := none, rejectedAt := none,
                paidAt := none }] },
         db.bookings.length)) ∧
    (∀ d2 k, postBooking db a c tid q n = .ok (d2, k) →
      c = a ∧ 0 < q ∧ ∃ t, db.tickets.find? (fun u => u.tid == tid) = some t ∧
        t.verificationStatus = "approved" ∧ q ≤ t.quantity) :=
  ⟨fun h => postBooking_forbidden_eq db a c tid q n h,
   fun h => postBooking_validation_eq db a tid q n h,
   fun hq hf => postBooking_notfound_eq db a tid q n hq hf,
   fun t hq hf hs => postBooking_notapproved_eq db a tid q n t hq hf hs,
   fun t hq hf hs hlt => postBooking_insufficient_eq db a tid q n t hU hq hf hs hlt,
   fun t hq hf hs hle => postBooking_success_eq db a tid q n t hU hq hf hs hle,
   fun d2 k hok => postBooking_ok_inv db a c tid q n hU d2 k hok⟩

/-- Witness for C4 (amended) at a concrete store. -/
theorem booking_create_characterization_witness :
    (([sampleTicket].map Ticket.tid).Nodup) ∧
    (("c@x" : String) ≠ "c@x" →
      postBooking (DB.mk [sampleTicket] [] []) "c@x" "c@x" 0 2 3 = .error .Forbidden) ∧
    ((2 : Int) ≤ 0 →
      postBooking (DB.mk [sampleTicket] [] []) "c@x" "c@x" 0 2 3 = .error .ValidationError) ∧
    ((0 : Int) < 2 → (DB.mk [sampleTicket] [] []).tickets.find? (fun u => u.tid == 0) = none →
      postBooking (DB.mk [sampleTicket] [] []) "c@x" "c@x" 0 2 3 = .error .NotFound) ∧
    (∀ t, (0 : Int) < 2 →
      (DB.mk [sampleTicket] [] []).tickets.find? (fun u => u.tid == 0) = some t →
      t.verificationStatus ≠ "approved" →
      postBooking (DB.mk [sampleTicket] [] []) "c@x" "c@x" 0 2 3 = .error .NotApproved) ∧
    (∀ t, (0 : Int) < 2 →
      (DB.mk [sampleTicket] [] []).tickets.find? (fun u => u.tid == 0) = some t →
      t.verificationStatus = "approved" → t.quantity < 2 →
      postBooking (DB.mk [sampleTicket] [] []) "c@x" "c@x" 0 2 3 = .error .InsufficientStock) ∧
    (∀ t, (0 : Int) < 2 →
      (DB.mk [sampleTicket] [] []).tickets.find? (fun u => u.tid == 0) = some t →
      t.verificationStatus = "approved" → 2 ≤ t.quantity →
      postBooking (DB.mk [sampleTicket] [] []) "c@x" "c@x" 0 2 3 = .ok
        ({ (DB.mk [sampleTicket] [] []) with
           tickets := (DB.mk [sampleTicket] [] []).tickets.map fun u =>
             if u.tid == 0 then { u with quantity := u.quantity - 2 } else u
           bookings := (DB.mk [sampleTicket] [] []).bookings ++
             [{ bid := (DB.mk [sampleTicket] [] []).bookings.length, ticketId := t.tid,
                vendorEmail := t.vendorEmail, customerEmail := "c@x", title := t.title,
                price := t.price, quantity := 2, status := "pending", createdAt := 3,
                acceptedAt := none, rejectedAt := none, paidAt := none }] },
         (DB.mk [sampleTicket] [] []).bookings.length)) ∧
    (∀ d2 k, postBooking (DB.mk [sampleTicket] [] []) "c@x" "c@x" 0 2 3 = .ok (d2, k) →
      ("c@x" : String) = "c@x" ∧ (0 : Int) < 2 ∧
      ∃ t, (DB.mk [sampleTicket] [] []).tickets.find? (fun u => u.tid == 0) = some t ∧
        t.verificationStatus = "approved" ∧ 2 ≤ t.quantity) :=
  ⟨by decide,
   booking_create_characterization (DB.mk [sampleTicket] [] []) "c@x" "c@x" 0 2 3 (by decide)⟩

/-! ## C5: the booking state machine edges -/

/-- C5 counterexample.  Payment verification carries no status filter on
its booking update: on a store whose only booking is already `rejected`
(a terminal state, with no edge to `paid`), a paid session makes
`POST /payments/verify` report success and move the booking to `paid` —
a transition outside the claimed edge set that neither fails with
`InvalidTransition` nor leaves the booking unchanged. -/
theorem finalize_skips_state_check_counterexample :
    (DB.mk [] [{ sampleBooking with status := "rejected" }] []).bookings.map Booking.status
      = ["rejected"] ∧
    ((verifyPayment (DB.mk [] [{ sampleBooking with status := "rejected" }] [])
        sampleSession 9).toOption.map (fun d => d.bookings.map Booking.status))
      = some ["paid"] :=
  ⟨rfl, by decide⟩

/-- C5 (amended).  The vendor transitions enforce the edge set: accepting
or rejecting a booking whose status is not `pending` fails with
`InvalidTransition` and writes nothing.  The payment-side transitions do
not: the cancel callback outside `accepted` is a silent no-op (not an
`InvalidTransition` error), and payment verification finalizes a booking
to `paid` whatever its current status, so `accepted → paid` is not
enforced by the code. -/
theorem booking_transition_enforcement (db : DB) (a : String) (bid : Nat) (n : Int) :
    (∀ b, db.bookings.find? (fun x => x.bid == bid) = some b → b.vendorEmail = a →
      b.status ≠ "pending" → acceptBooking db a bid n = .error .InvalidTransition) ∧
    (∀ b, db.bookings.find? (fun x => x.bid == bid) = some b → b.vendorEmail = a →
      b.status ≠ "pending" → rejectBooking db a bid n = .error .InvalidTransition) ∧
    (∀ b, db.bookings.find? (fun x => x.bid == bid) = some b → b.status ≠ "accepted" →
      paymentCancelled db bid = db) ∧
    (∀ s b, s.bookingId = bid → s.payment_status = "paid" →
      db.bookings.find? (fun x => x.bid == bid) = some b →
      db.payments.find? (fun p => p.transactionId == s.payment_intent) = none →
      ∃ d2, verifyPayment db s n = .ok d2 ∧
        (d2.bookings.find? (fun x => x.bid == bid)).map Booking.status = some "paid") := by
  refine ⟨?_, ?_, ?_, ?_⟩
  · intro b hf hv hs
    unfold acceptBooking
    rw [hf]
    dsimp only
    rw [if_neg (by simp [hv]), if_pos hs]
  · intro b hf hv hs
    unfold rejectBooking
    rw [hf]
    dsimp only
    rw [if_neg (by simp [hv]), if_pos hs]
  · intro b hf hs
    unfold paymentCancelled
    rw [hf]
    dsimp only
    rw [if_neg (by simp [hs])]
  · intro s b hsid hsp hf hpn
    subst hsid
    refine ⟨_, verifyPayment_insert_eq db s n b hsp hf hpn, ?_⟩
    rw [updateFirst_find?_eq (p := fun x : Booking => x.bid == s.bookingId)
        (f := fun x : Booking => { x with status := "paid", paidAt := some n })
        (fun x => rfl), hf]
    rfl

/-! ## C6: rejecting a pending booking restores the reservation -/

theorem release_undoes_reserve {tid : Nat} {q : Int} :
    ∀ {ts : List Ticket}, (ts.map Ticket.tid).Nodup →
      updateFirst (fun u => u.tid == tid) (fun u => { u with quantity := u.quantity + q })
        (ts.map fun u => if u.tid == tid then { u with quantity := u.quantity - q } else u)
      = ts := by
  intro ts
  induction ts with
  | nil => intro _; rfl
  | cons x xs ih =>
    intro hU
    rw [List.map_cons, List.nodup_cons] at hU
    obtain ⟨hxnot, hU2⟩ := hU
    by_cases hx : x.tid = tid
    · have hbx : (x.tid == tid) = true := by simp [hx]
      have htail : ∀ u ∈ xs,
          (if u.tid == tid then { u with quantity := u.quantity - q } else u) = u := by
        intro u hu
        have hne : ¬ u.tid = tid := by
          intro hcontra
          refine hxnot ?_
          rw [show x.tid = u.tid by rw [hx, hcontra]]
          exact List.mem_map_of_mem Ticket.tid hu
        simp [hne]
      rw [List.map_cons]
      simp only [hbx, if_true]
      rw [List.map_congr_left htail, List.map_id']
      have hstep : updateFirst (fun u => u.tid == tid)
          (fun u => { u with quantity := u.quantity + q })
          ({ x with quantity := x.quantity - q } :: xs) =
          { x with quantity := x.quantity - q + q } :: xs := by
        simp [updateFirst, hbx]
      rw [hstep]
      have hqq : x.quantity - q + q = x.quantity := by omega
      rw [hqq]
    · have hbx : (x.tid == tid) = false := by simp [hx]
      rw [List.map_cons]
      simp only [hbx, Bool.false_eq_true, if_false]
      have hstep : updateFirst (fun u => u.tid == tid)
          (fun u => { u with quantity := u.quantity + q })
          (x :: (xs.map fun u =>
            if u.tid == tid then { u with quantity := u.quantity - q } else u)) =
          x :: updateFirst (fun u => u.tid == tid)
            (fun u => { u with quantity := u.quantity + q })
            (xs.map fun u =>
              if u.tid == tid then { u with quantity := u.quantity - q } else u) := by
        simp [updateFirst, hbx]
      rw [hstep, ih hU2]

/-- C6.  Creating a booking (which reserves `q` units) and then having the
vendor reject it returns the store's ticket collection to exactly its
pre-booking state, and the booking ends `rejected` with `rejectedAt`
stamped at the rejection time. -/
theorem reject_restores_stock (db : DB) (t : Ticket) (a : String) (tid : Nat)
    (q n1 n2 : Int)
    (hU : (db.tickets.map Ticket.tid).Nodup)
    (hf : db.tickets.find? (fun u => u.tid == tid) = some t)
    (hs : t.verificationStatus = "approved")
    (hq : 0 < q) (hle : q ≤ t.quantity)
    (hfresh : ∀ b ∈ db.bookings, b.bid ≠ db.bookings.length) :
    ∃ db1, postBooking db a a tid q n1 = .ok (db1, db.bookings.length) ∧
    ∃ db2, rejectBooking db1 t.vendorEmail db.bookings.length n2 = .ok db2 ∧
      db2.tickets = db.tickets ∧
      (db2.bookings.find? (fun b => b.bid == db.bookings.length)).map
        (fun b => (b.status, b.rejectedAt)) = some ("rejected", some n2) := by
  have hid : t.tid = tid := by simpa using List.find?_some hf
  subst hid
  refine ⟨_, postBooking_success_eq db a t.tid q n1 t hU hq hf hs hle, ?_⟩
  have hnone : db.bookings.find? (fun b => b.bid == db.bookings.length) = none := by
    rw [List.find?_eq_none]
    intro b hb
    simp [hfresh b hb]
  have hfind1 : (db.bookings ++
      [({ bid := db.bookings.length, ticketId := t.tid, vendorEmail := t.vendorEmail,
          customerEmail := a, title := t.title, price := t.price, quantity := q,
          status := "pending", createdAt := n1, acceptedAt := none, rejectedAt := none,
          paidAt := none } : Booking)]).find? (fun b => b.bid == db.bookings.length) =
      some ({ bid := db.bookings.length, ticketId := t.tid,
              vendorEmail := t.vendorEmail,
              customerEmail := a, title := t.title, price := t.price, quantity := q,
              status := "pending", createdAt := n1, acceptedAt := none,
              rejectedAt := none, paidAt := none } : Booking) := by
    rw [find?_append_left_none hnone]
    simp [List.find?]
  unfold rejectBooking
  rw [hfind1]
  dsimp only
  rw [if_neg (by simp), if_neg (by simp)]
  refine ⟨_, rfl, ?_, ?_⟩
  · exact release_undoes_reserve hU
  · rw [updateFirst_find?_eq (p := fun b : Booking => b.bid == db.bookings.length)
        (f := fun b : Booking => { b with status := "rejected", rejectedAt := some n2 })
        (fun x => rfl), hfind1]
    rfl

/-- Witness for C6: stock 5, booking of 2 units, created then rejected. -/
theorem reject_restores_stock_witness :
    (([sampleTicket].map Ticket.tid).Nodup ∧
     (DB.mk [sampleTicket] [] []).tickets.find? (fun u => u.tid == 0) = some sampleTicket ∧
     sampleTicket.verificationStatus = "approved" ∧ (0 : Int) < 2 ∧
     2 ≤ sampleTicket.quantity ∧
     (∀ b ∈ (DB.mk [sampleTicket] [] []).bookings,
        b.bid ≠ (DB.mk [sampleTicket] [] []).bookings.length)) ∧
    (∃ db1, postBooking (DB.mk [sampleTicket] [] []) "c@x" "c@x" 0 2 3 =
        .ok (db1, (DB.mk [sampleTicket] [] []).bookings.length) ∧
     ∃ db2, rejectBooking db1 sampleTicket.vendorEmail
         (DB.mk [sampleTicket] [] []).bookings.length 4 = .ok db2 ∧
       db2.tickets = (DB.mk [sampleTicket] [] []).tickets ∧
       (db2.bookings.find? (fun b =>
           b.bid == (DB.mk [sampleTicket] [] []).bookings.length)).map
         (fun b => (b.status, b.rejectedAt)) = some ("rejected", some 4)) :=
  ⟨⟨by decide, by decide, rfl, by decide, by decide, by decide⟩,
   reject_restores_stock (DB.mk [sampleTicket] [] []) sampleTicket "c@x" 0 2 3 4
     (by decide) (by decide) rfl (by decide) (by decide) (by decide)⟩

/-! ## C7: what finalization does (and does not do) to inventory -/

/-- C7 counterexample.  In the `index.js` revision, payment finalization
(`GET /stripe/payment-success`) does modify the ticket's inventory: on a
store with stock 5 and an accepted booking for 2 units, a paid session
moves the booking to `paid` and decrements the ticket quantity from 5 to
3, contradicting the claim that finalization never touches inventory. -/
theorem finalize_decrements_stock_counterexample :
    (DB.mk [sampleTicket] [sampleBooking] []).tickets.map Ticket.quantity = [5] ∧
    (stripePaymentSuccess (DB.mk [sampleTicket] [sampleBooking] [])
      sampleSession 9).1 = .success ∧
    (stripePaymentSuccess (DB.mk [sampleTicket] [sampleBooking] [])
      sampleSession 9).2.bookings.map Booking.status = ["paid"] ∧
    (stripePaymentSuccess (DB.mk [sampleTicket] [sampleBooking] [])
      sampleSession 9).2.tickets.map Ticket.quantity = [3] :=
  ⟨rfl, by decide, by decide, by decide⟩

/-- C7 (amended).  The latest-revision finalizer `POST /payments/verify`
has the claimed frame: on success it sets the booking to `paid`, stamps
`paidAt`, and leaves the ticket collection exactly unchanged (first two
conjuncts).  The `index.js` finalizer `GET /stripe/payment-success`
instead performs, in the same run that marks the booking paid, the guarded
inventory decrement `updateOne({_id, quantity: {$gte: qty}},
{$inc: {quantity: -qty}})` (third conjunct): in that revision stock is
consumed at payment time, not at booking creation. -/
theorem finalize_inventory_frame (db : DB) (s : Session) (n : Int) :
    (∀ d2, verifyPayment db s n = .ok d2 → d2.tickets = db.tickets) ∧
    (∀ b, s.payment_status = "paid" →
      db.bookings.find? (fun x => x.bid == s.bookingId) = some b →
      db.payments.find? (fun p => p.transactionId == s.payment_intent) = none →
      ∃ d2, verifyPayment db s n = .ok d2 ∧
        (d2.bookings.find? (fun x => x.bid == s.bookingId)).map
          (fun x => (x.status, x.paidAt)) = some ("paid", some n) ∧
        d2.tickets = db.tickets) ∧
    (∀ b, s.payment_status = "paid" →
      db.bookings.find? (fun x => x.bid == s.bookingId) = some b →
      db.payments.find? (fun p => p.transactionId == s.payment_intent) = none →
      (stripePaymentSuccess db s n).2.tickets = updateFirst
        (fun t => t.tid == s.ticketId && decide (s.quantityMeta ≤ t.quantity))
        (fun t => { t with quantity := t.quantity - s.quantityMeta }) db.tickets) := by
  refine ⟨?_, ?_, ?_⟩
  · intro d2 hok
    exact (verifyPayment_ok_shape db s n d2 hok).1
  · intro b hsp hf hpn
    refine ⟨_, verifyPayment_insert_eq db s n b hsp hf hpn, ?_, rfl⟩
    rw [updateFirst_find?_eq (p := fun x : Booking => x.bid == s.bookingId)
        (f := fun x : Booking => { x with status := "paid", paidAt := some n })
        (fun x => rfl), hf]
    rfl
  · intro b hsp hf hpn
    rw [stripeSuccess_insert_eq db s n b hsp hf hpn]

/-! ## C8: the advertisement slot cap -/

/-- C8.  The admin advertise toggle: turning advertising on fails with
`SlotLimitExceeded` exactly when at least 6 tickets currently satisfy
`approved ∧ advertised` (so with 5 currently advertised the 6th request
succeeds, and with 6 the 7th is rejected), and turning it off succeeds for
any existing ticket no matter what the count is. -/
theorem advertise_slot_cap (db : DB) (tid : Nat) :
    (6 ≤ countAdvertised db → advertiseTicket db tid true = .error .SlotLimitExceeded) ∧
    (countAdvertised db < 6 → ∀ t, db.tickets.find? (fun u => u.tid == tid) = some t →
      advertiseTicket db tid true = .ok { db with
        tickets := updateFirst (fun u => u.tid == tid)
          (fun u => { u with advertised := true }) db.tickets }) ∧
    (∀ t, db.tickets.find? (fun u => u.tid == tid) = some t →
      advertiseTicket db tid false = .ok { db with
        tickets := updateFirst (fun u => u.tid == tid)
          (fun u => { u with advertised := false }) db.tickets }) := by
  refine ⟨?_, ?_, ?_⟩
  · intro h
    unfold advertiseTicket
    rw [if_pos (by simp [h])]
  · intro h t hf
    unfold advertiseTicket
    rw [if_neg (by simp; omega), if_neg (by simp [hf])]
  · intro t hf
    unfold advertiseTicket
    rw [if_neg (by simp), if_neg (by simp [hf])]

/-! ## C9: is rejection terminal for vendor mutations? -/

/-- C9 counterexample.  The `PUT /tickets/:id` route checks only
ownership, never the verification status: the owning vendor of a
`rejected` ticket updates its price to 99 with a success reply, so not
every vendor mutation of a rejected ticket fails with `Forbidden`. -/
theorem put_updates_rejected_counterexample :
    (DB.mk [{ sampleTicket with verificationStatus := "rejected" }] [] []).tickets.map
      Ticket.verificationStatus = ["rejected"] ∧
    ((putTicket (DB.mk [{ sampleTicket with verificationStatus := "rejected" }] [] [])
        "v@x" 0 [FieldSet.price 99]).toOption.map
      (fun d => d.tickets.map Ticket.price)) = some [99] :=
  ⟨rfl, by decide⟩

/-- C9 (amended).  Rejection is terminal on the PATCH and DELETE routes:
`PATCH /tickets/:id` fails `Forbidden` on any rejected ticket (whatever
the body), and `DELETE /tickets/:id` fails `Forbidden` for the owning
vendor of a rejected ticket; both error out before writing.  The
`PUT /tickets/:id` route, however, checks only ownership: the owner's
update is applied as-is even when the ticket is rejected. -/
theorem rejected_ticket_mutations (db : DB) (a : String) (tid : Nat)
    (body : List FieldSet) :
    (∀ t, db.tickets.find? (fun u => u.tid == tid) = some t →
      t.verificationStatus = "rejected" →
      patchTicket db tid body = .error .Forbidden) ∧
    (∀ t, db.tickets.find? (fun u => u.tid == tid) = some t →
      t.vendorEmail = a → t.verificationStatus = "rejected" →
      deleteTicket db a tid = .error .Forbidden) ∧
    (∀ t, db.tickets.find? (fun u => u.tid == tid) = some t →
      t.vendorEmail = a →
      putTicket db a tid body = .ok { db with
        tickets := updateFirst (fun u => u.tid == tid) (applySet body) db.tickets }) := by
  refine ⟨?_, ?_, ?_⟩
  · intro t hf hr
    unfold patchTicket
    dsimp only
    rw [hf]
    dsimp only
    rw [if_pos (by simp [hr])]
  · intro t hf hv hr
    unfold deleteTicket
    rw [hf]
    dsimp only
    rw [if_neg (by simp [hv]), if_pos (by simp [hr])]
  · intro t hf hv
    unfold putTicket
    rw [hf]
    dsimp only
    rw [if_neg (by simp [hv])]

/-! ## C10: the vendor PATCH route cannot touch moderation or ownership -/

theorem setField_view (t : Ticket) (a : FieldSet) (ha : isProtected a = false) :
    protectedView (setField t a) = protectedView t := by
  cases a <;> simp_all [setField, isProtected, protectedView]

theorem applySet_strip_view (body : List FieldSet) :
    ∀ t, protectedView (applySet (stripProtected body) t) = protectedView t := by
  induction body with
  | nil => intro t; rfl
  | cons a rest ih =>
    intro t
    by_cases ha : isProtected a = true
    · have hstep : stripProtected (a :: rest) = stripProtected rest := by
        simp [stripProtected, ha]
      rw [hstep]
      exact ih t
    · have ha2 : isProtected a = false := by simpa using ha
      have hstep : stripProtected (a :: rest) = a :: stripProtected rest := by
        simp [stripProtected, ha2]
      rw [hstep]
      show protectedView (applySet (stripProtected rest) (setField t a)) = protectedView t
      rw [ih (setField t a), setField_view t a ha2]

theorem updateFirst_map_view {p : Ticket → Bool} {f : Ticket → Ticket}
    (hf : ∀ t, protectedView (f t) = protectedView t) :
    ∀ l : List Ticket, (updateFirst p f l).map protectedView = l.map protectedView := by
  intro l
  induction l with
  | nil => rfl
  | cons x xs ih =>
    by_cases hx : p x = true
    · simp [updateFirst, hx, hf]
    · simp [updateFirst, hx, ih]

/-- C10.  `PATCH /tickets/:id` deletes `verificationStatus`, `vendorEmail`,
`vendorName` and `createdAt` from the request body before applying `$set`:
whatever assignments the body contains — including assignments to those
four keys — every ticket's moderation status, ownership fields and
creation time are identical before and after a successful PATCH. -/
theorem patch_preserves_protected_fields (db : DB) (tid : Nat) (body : List FieldSet) :
    ∀ d2, patchTicket db tid body = .ok d2 →
      d2.tickets.map protectedView = db.tickets.map protectedView := by
  intro d2 hok
  unfold patchTicket at hok
  dsimp only at hok
  split at hok
  · cases hok
  · split at hok
    · cases hok
    · cases hok
      exact updateFirst_map_view (fun t => applySet_strip_view body t) db.tickets

/-- Witness for C10: a body that tries to overwrite `vendorEmail` and the
price; only the price change survives, and the protected view of the store
is untouched. -/
theorem patch_preserves_protected_fields_witness :
    (patchTicket (DB.mk [sampleTicket] [] []) 0
        [FieldSet.vendorEmail "evil@x", FieldSet.price 7]
      = .ok (DB.mk [{ sampleTicket with price := 7 }] [] [])) ∧
    (DB.mk [{ sampleTicket with price := 7 }] [] []).tickets.map protectedView =
      (DB.mk [sampleTicket] [] []).tickets.map protectedView :=
  ⟨rfl,
   patch_preserves_protected_fields (DB.mk [sampleTicket] [] []) 0
     [FieldSet.vendorEmail "evil@x", FieldSet.price 7]
     (DB.mk [{ sampleTicket with price := 7 }] [] []) rfl⟩
